import Mathlib

/-!
Verification development for the extension acquisition and API-emulation
pipeline: GitHub identifier parsing, entry-point discovery, registry client,
package loading/caching, and the emulated host API adapter.

Strings manipulated by the parser are modelled as `List Char` so that the
regular-expression matching of the source can be embedded as structural
recursion with explicit backtracking.
-/

abbrev Str := List Char

deriving instance DecidableEq for Except

/-- Truthiness of an optional string field, as JavaScript evaluates it:
`undefined` and the empty string are falsy. -/
def jsTruthy : Option Str → Bool
  | some s => !s.isEmpty
  | none => false

/-- Decides whether the first list is a leading segment of the second. -/
def hasPre : Str → Str → Bool
  | [], _ => true
  | _ :: _, [] => false
  | a :: p, b :: s => a == b && hasPre p s

/-- Removes a required leading literal, returning the remainder on success. -/
def dropPre : Str → Str → Option Str
  | [], s => some s
  | _ :: _, [] => none
  | a :: p, b :: s => if a = b then dropPre p s else none

/-- Decides whether the first list is a trailing segment of the second. -/
def hasSuffix (suf s : Str) : Bool := hasPre suf.reverse s.reverse

/-- Splits a string at the first slash: the `[^/]*` part and the rest. -/
def splitSeg (s : Str) : Str × Str :=
  (s.takeWhile (· != '/'), s.dropWhile (· != '/'))

/-- Characters matched by the JavaScript regex metacharacter `.`
(without the `s` flag): everything except line terminators. -/
def dotOk (c : Char) : Bool :=
  c != '\n' && c != '\r' && c != '\u2028' && c != '\u2029'

/-- Matches the optional trailing group `(?:\/(.+))?$` of the source patterns.
Returns `some m4` when the remainder can be consumed (with `m4` the capture of
`(.+)`, absent when the group did not participate), `none` when the regex
engine must backtrack because the remainder reaches neither alternative. -/
def tailGroup : Str → Option (Option Str)
  | [] => some none
  | '/' :: t => if !t.isEmpty && t.all dotOk then some (some t) else none
  | _ => none

/-- Whitespace trimming applied by the source before matching
(`url.trim()`). -/
def trimL (s : Str) : Str :=
  ((s.dropWhile Char.isWhitespace).reverse.dropWhile Char.isWhitespace).reverse

/-- Structured result of the identifier parser, embedding the source
interface `ParsedGitHubUrl { owner; repo; ref?; path? }`. -/
structure ParsedGitHubUrl where
  owner : Str
  repo : Str
  ref : Option Str := none
  path : Option Str := none
deriving DecidableEq, Repr

/-- Raw capture groups of one of the URL patterns:
owner, repo, optional group 3 (explicit ref), optional group 4 (trailer). -/
abbrev UrlGroups := Str × Str × Option Str × Option Str

/-- Matches the body of the web-URL patterns after the host part:
`([^\/]+)\/([^\/]+)(?:\/tree\/([^\/]+))?(?:\/(.+))?$`, including the
backtracking the regex engine performs when taking the greedy `tree`
alternative leaves a remainder the final group cannot consume.  With
`withTree = false` this is the second, tree-less pattern of the source. -/
def urlCore (withTree : Bool) (s : Str) : Option UrlGroups :=
  let owner := (splitSeg s).1
  if owner.isEmpty then none else
  match (splitSeg s).2 with
  | '/' :: s2 =>
    let repo := (splitSeg s2).1
    let rem := (splitSeg s2).2
    if repo.isEmpty then none else
    let noTree : Option UrlGroups :=
      (tailGroup rem).map (fun m4 => (owner, repo, none, m4))
    if withTree then
      match dropPre "/tree/".toList rem with
      | some r2 =>
        let seg := (splitSeg r2).1
        if seg.isEmpty then noTree
        else
          match tailGroup (splitSeg r2).2 with
          | some m4 => some (owner, repo, some seg, m4)
          | none => noTree
      | none => noTree
    else noTree
  | _ => none

/-- Consumes `https?:\/\/` at the start of the input. -/
def dropScheme (s : Str) : Option Str :=
  match dropPre "https://".toList s with
  | some r => some r
  | none => dropPre "http://".toList s

/-- Consumes `(?:www\.)?github\.com\/` after the scheme. -/
def dropHost (s : Str) : Option Str :=
  let s1 :=
    match dropPre "www.".toList s with
    | some r => r
    | none => s
  dropPre "github.com/".toList s1

/-- One full web-URL pattern of `GITHUB_URL_PATTERNS` applied to the input. -/
def matchUrlPattern (withTree : Bool) (s : Str) : Option UrlGroups :=
  (dropScheme s).bind fun r => (dropHost r).bind fun r2 => urlCore withTree r2

/-- Removes a trailing `.git` from the repository capture, embedding
`repo.replace(/\.git$/, '')`. -/
def stripDotGit (repo : Str) : Str :=
  if hasSuffix ".git".toList repo then repo.take (repo.length - 4) else repo

/-- First slash-separated segment, embedding `s.split('/')[0]`. -/
def firstSeg (s : Str) : Str := s.takeWhile (· != '/')

/-- Embeds `s.includes('/') ? s.substring(s.indexOf('/') + 1) : undefined`. -/
def afterFirstSlash (s : Str) : Option Str :=
  if s.any (· == '/') then some ((s.dropWhile (· != '/')).drop 1) else none

/-- Post-processing the source applies to a successful web-URL match:
strip `.git`, derive `ref` from group 3 or the first trailer segment, derive
`path` by cutting the trailer at its first slash, and keep the result only
when owner and repo are truthy. -/
def finishUrl (g : UrlGroups) : Option ParsedGitHubUrl :=
  let (owner, repo0, m3, m4) := g
  let repo := stripDotGit repo0
  let ref : Option Str :=
    match m3 with
    | some r => some r
    | none =>
      match m4 with
      | some p4 => if (firstSeg p4).isEmpty then none else some (firstSeg p4)
      | none => none
  let path : Option Str :=
    match m4 with
    | some p4 => afterFirstSlash p4
    | none => none
  if !owner.isEmpty && !repo.isEmpty then some ⟨owner, repo, ref, path⟩ else none

/-- Matches `SHORT_FORMAT_PATTERN`:
`^([^\/@]+)\/([^\/@]+)(?:@([^\/]+))?(?:\/(.+))?$`. -/
def shortCore (s : Str) : Option UrlGroups :=
  let ownerP := s.takeWhile (fun c => c != '/' && c != '@')
  if ownerP.isEmpty then none else
  match s.drop ownerP.length with
  | '/' :: s2 =>
    let repoP := s2.takeWhile (fun c => c != '/' && c != '@')
    if repoP.isEmpty then none else
    match s2.drop repoP.length with
    | '@' :: r2 =>
      let seg := (splitSeg r2).1
      if seg.isEmpty then none
      else (tailGroup (splitSeg r2).2).map (fun m4 => (ownerP, repoP, some seg, m4))
    | rem => (tailGroup rem).map (fun m4 => (ownerP, repoP, none, m4))
  | _ => none

/-- Post-processing of a short-form match: strip `.git` and keep the captures
as they are (`ref` and `path` come straight from groups 3 and 4). -/
def finishShort (g : UrlGroups) : Option ParsedGitHubUrl :=
  let (owner, repo0, m3, m4) := g
  let repo := stripDotGit repo0
  if !owner.isEmpty && !repo.isEmpty then some ⟨owner, repo, m3, m4⟩ else none

/-- Failure modes of `GitHubUrlParser.parse`. -/
inductive ParseError where
  | emptyInput
  | malformedIdentifier
deriving DecidableEq, Repr

namespace GitHubUrlParser

/-- Embeds `GitHubUrlParser.parse`: reject empty input, trim, try the two
web-URL patterns in order (falling through when the `owner && repo` guard
fails), then the short-form pattern. -/
def parse (url : Str) : Except ParseError ParsedGitHubUrl :=
  if url.isEmpty then .error .emptyInput else
  let trimmed := trimL url
  match (matchUrlPattern true trimmed).bind finishUrl with
  | some p => .ok p
  | none =>
    match (matchUrlPattern false trimmed).bind finishUrl with
    | some p => .ok p
    | none =>
      match (shortCore trimmed).bind finishShort with
      | some p => .ok p
      | none => .error .malformedIdentifier

/-- Embeds `GitHubUrlParser.isValid`: parse and discard. -/
def isValid (url : Str) : Bool :=
  match parse url with
  | .ok _ => true
  | .error _ => false

/-- Embeds `GitHubUrlParser.toGitHubUrl`: canonical URL reconstruction,
with the `tree` segment present exactly when `ref` is truthy. -/
def toGitHubUrl (p : ParsedGitHubUrl) : Str :=
  let base := "https://github.com/".toList ++ p.owner ++ '/' :: p.repo
  let pathPart :=
    match p.path with
    | some q => if !q.isEmpty then '/' :: q else []
    | none => []
  if jsTruthy p.ref then
    base ++ "/tree/".toList ++ (p.ref.getD []) ++ pathPart
  else
    base ++ pathPart

end GitHubUrlParser

/-- Well-formedness of an owner or repository segment as hypothesised by the
round-trip claim: non-empty, free of slashes, at-signs and whitespace. -/
def segOk (s : Str) : Bool :=
  !s.isEmpty && s.all (fun c => c != '/' && c != '@' && !c.isWhitespace)

/-- Well-formedness of a ref segment: non-empty, free of slashes and
whitespace. -/
def refSegOk (s : Str) : Bool :=
  !s.isEmpty && s.all (fun c => c != '/' && !c.isWhitespace)

/-- Default applied by JavaScript string-or expressions such as
`parsed.ref || 'main'`. -/
def jsOrD (o : Option Str) (d : Str) : Str :=
  match o with
  | some s => if s.isEmpty then d else s
  | none => d

/-- Resolved entry point of a GitHub-hosted extension, embedding the source
interface `ExtensionEntryPoint { path; isTypeScript; cdnUrl }`. -/
structure ExtensionEntryPoint where
  path : Str
  isTypeScript : Bool
  cdnUrl : Str
deriving DecidableEq, Repr

/-- Classifies a path as a TypeScript source, embedding the repeated source
expression `p.endsWith('.ts') || p.endsWith('.tsx')`. -/
def isTsPath (s : Str) : Bool :=
  hasSuffix ".ts".toList s || hasSuffix ".tsx".toList s

namespace GitHubExtensionLoader

/-- Embeds the conventional candidate list `ENTRY_POINTS`. -/
def ENTRY_POINTS : List Str :=
  ["index.ts".toList, "index.tsx".toList, "extension.ts".toList,
   "extension.tsx".toList, "index.js".toList, "extension.js".toList,
   "main.js".toList]

/-- Embeds `GitHubExtensionLoader.toEsmShUrl`: the CDN URL
`https://esm.sh/gh/{owner}/{repo}@{ref or main}/{path without leading slash}`.
-/
def toEsmShUrl (p : ParsedGitHubUrl) (path : Str) : Str :=
  let ref := jsOrD p.ref "main".toList
  let fullPath :=
    match path with
    | '/' :: t => t
    | _ => path
  "https://esm.sh".toList ++ "/gh/".toList ++
    p.owner ++ '/' :: p.repo ++ '@' :: ref ++ '/' :: fullPath

/-- Environment of the entry-point discovery: the outcome of the
`package.json` fetch through the source-hosting API (`none` embeds every
failure path of `fetchPackageJson`, which returns `null` on them), and the
outcome of a `HEAD` existence probe for each CDN URL. -/
structure GhEnv where
  pkgJsonMain : Option (Option Str)
  probeOk : Str → Bool

/-- Probing loop of `discoverEntryPoint` over the conventional candidates:
returns the first candidate whose CDN URL responds to the `HEAD` probe,
together with the number of probes issued. -/
def probeLoop (env : GhEnv) (p : ParsedGitHubUrl) :
    List Str → (Except Unit ExtensionEntryPoint) × Nat
  | [] => (.error (), 0)
  | e :: rest =>
    let u := toEsmShUrl p e
    if env.probeOk u then (.ok ⟨e, isTsPath e, u⟩, 1)
    else
      let step := probeLoop env p rest
      (step.1, step.2 + 1)

/-- Embeds `GitHubExtensionLoader.discoverEntryPoint`; the two counters
record how many package-descriptor fetches and how many existence probes the
call performs. -/
def discoverEntryPoint (env : GhEnv) (p : ParsedGitHubUrl) :
    (Except Unit ExtensionEntryPoint) × Nat × Nat :=
  if jsTruthy p.path then
    let s := p.path.getD []
    (.ok ⟨s, isTsPath s, toEsmShUrl p s⟩, 0, 0)
  else
    match env.pkgJsonMain with
    | some (some m) =>
      if !m.isEmpty then (.ok ⟨m, isTsPath m, toEsmShUrl p m⟩, 1, 0)
      else
        let step := probeLoop env p ENTRY_POINTS
        (step.1, 1, step.2)
    | _ =>
      let step := probeLoop env p ENTRY_POINTS
      (step.1, 1, step.2)

end GitHubExtensionLoader

/-- Truthiness of an optional JavaScript string value, for the loader-side
code where strings are modelled by `String`. -/
def truthyS : Option String → Bool
  | some s => s != ""
  | none => false

/-- Registry search/metadata result, embedding the source interface
`OpenVSXExtension`; `nspace` embeds the source field `namespace`, which is a
reserved word in Lean. -/
structure OpenVSXExtension where
  nspace : String
  name : String
  version : String
  displayName : Option String := none
  description : Option String := none
  publisher : Option String := none
  files : Option (Option String) := none
deriving DecidableEq, Repr

/-- Optional-chaining access `extension.files?.download`. -/
def filesDownload (e : OpenVSXExtension) : Option String :=
  match e.files with
  | some d => d
  | none => none

namespace OpenVSXClient

/-- Embeds the constructor normalization
`baseUrl.replace(/\/$/, '')` of `OpenVSXClient`. -/
def normalizeBaseUrl (s : String) : String :=
  if s.endsWith "/" then s.dropRight 1 else s

/-- Embeds `OpenVSXClient.getDownloadUrl`: an existing truthy download
descriptor (`extension.files?.download`) is returned unchanged; otherwise the
registry URL is synthesized when namespace, name and version are all truthy;
otherwise the result is undefined. -/
def getDownloadUrl (baseUrl : String) (e : OpenVSXExtension) : Option String :=
  if truthyS (filesDownload e) then filesDownload e
  else if e.nspace != "" && e.name != "" && e.version != "" then
    some (baseUrl ++ "/" ++ e.nspace ++ "/" ++ e.name ++ "/" ++ e.version ++
      "/file/" ++ e.nspace ++ "." ++ e.name ++ "-" ++ e.version ++ ".vsix")
  else none

/-- Embeds `OpenVSXClient.getExtensionId`: the template literal
`{namespace}.{name}` over the extension's identity fields. -/
def getExtensionId (e : OpenVSXExtension) : String :=
  e.nspace ++ "." ++ e.name

end OpenVSXClient

/-- JavaScript string-or `a || b` over plain strings. -/
def jsOrS (a b : String) : String := if a == "" then b else a

/-- Parsed package manifest, embedding the source interface `VSIXManifest`
(the dynamically accessed `publisher` field included). -/
structure VSIXManifest where
  name : String
  displayName : Option String := none
  version : String
  main : Option String := none
  browser : Option String := none
  extensionKind : Option (List String) := none
  publisher : Option String := none
  activationEvents : Option (List String) := none
deriving DecidableEq, Repr

/-- Fully unpacked extension package, embedding the source interface
`LoadedVSIX`; `nspace` embeds the source field `namespace`. -/
structure LoadedVSIX where
  manifest : VSIXManifest
  extensionId : String
  nspace : String
  name : String
  version : String
  files : List (String × String)
  entryPoint : Option String := none
  isWebExtension : Option Bool := none
deriving DecidableEq, Repr

/-- One archive entry as JSZip exposes it: its path, whether it is a
directory, the outcome of `async("string")` decoding, and the outcome of the
blob-text fallback decoding (each `none` when that decoding throws). -/
structure ZipEntry where
  path : String
  dir : Bool
  strContent : Option String
  blobText : Option String
deriving DecidableEq, Repr

/-- Decompressed archive contents. -/
abbrev Zip := List ZipEntry

/-- Embeds JSZip `zip.file(name)`: the non-directory entry with that exact
path, or nothing. -/
def zipFile (z : Zip) (name : String) : Option ZipEntry :=
  z.find? (fun e => e.path == name && !e.dir)

/-- Record persisted through the cache collaborator by `cacheVSIX`. -/
structure CachedRecord where
  manifest : VSIXManifest
  extensionId : String
  nspace : String
  name : String
  version : String
  files : List (String × String)
  entryPoint : Option String
  isWebExtension : Option Bool
deriving DecidableEq, Repr

/-- Mutable state owned by the loader and its collaborators: the in-memory
repository `loadedExtensions`, the persistence store, and the number of
network transfers the transport collaborator has performed. -/
structure LoaderState where
  loadedExtensions : List (String × LoadedVSIX)
  store : List (String × CachedRecord)
  fetchCount : Nat
deriving DecidableEq, Repr

/-- External collaborators of a load: the transport (URL to archive, `none`
embedding every non-success outcome), the JSON parser applied to the manifest
text, and whether the persistence write succeeds. -/
structure LoaderEnv where
  fetch : String → Option Zip
  parseJson : String → Option VSIXManifest
  persistOk : Bool

/-- Key-overwriting insertion, embedding `Map.set`. -/
def upsert {β : Type} (m : List (String × β)) (k : String) (v : β) :
    List (String × β) :=
  (k, v) :: m.filter (fun kv => kv.1 != k)

/-- Failure modes of the package loader. -/
inductive LoadError where
  | downloadFailed
  | manifestMissing
  | manifestReadFailed
  | manifestParseError
  | noDownloadUrl
deriving DecidableEq, Repr

namespace VSIXLoader

/-- Embeds the storage-key constant `VSIX_STORAGE_PREFIX`. -/
def storageBase : String := "vsix_extensions/"

/-- Version-qualified persistence key of a package. -/
def storageKey (extensionId version : String) : String :=
  storageBase ++ extensionId ++ "/" ++ version

/-- Embeds the `extensionKind` membership test of `isWebExtension`. -/
def kindHasWebUi (m : VSIXManifest) : Bool :=
  match m.extensionKind with
  | some ks => ks.contains "web" || ks.contains "ui"
  | none => false

/-- Embeds `VSIXLoader.isWebExtension`: browser field, web/ui tags, or the
absence of both entry fields make a manifest web-compatible. -/
def isWebExtension (m : VSIXManifest) : Bool :=
  if truthyS m.browser then true
  else if kindHasWebUi m then true
  else if !truthyS m.main && !truthyS m.browser then true
  else false

/-- Embeds `VSIXLoader.isUniversalExtension`. -/
def isUniversalExtension (m : VSIXManifest) : Bool :=
  if truthyS m.main && truthyS m.browser then true
  else
    match m.extensionKind with
    | some ks =>
      (ks.contains "web" || ks.contains "ui") && ks.contains "workspace"
    | none => false

/-- Entry-point selection of the unpack step: browser field, else main field,
else the fixed default, with a leading `./` stripped afterwards. -/
def entryPointOf (m : VSIXManifest) : String :=
  if truthyS m.browser then m.browser.getD ""
  else if truthyS m.main then m.main.getD ""
  else "extension.js"

/-- Embeds `entryPoint.replace(/^\.\//, '')`. -/
def stripDotSlash (s : String) : String :=
  match s.toList with
  | '.' :: '/' :: t => String.mk t
  | _ => s

/-- File cataloging loop of the unpack step: skip directories, prefer string
decoding, fall back to blob-text decoding, drop entries failing both. -/
def collectFiles (z : Zip) : List (String × String) :=
  z.foldl
    (fun acc e =>
      if e.dir then acc
      else
        match e.strContent with
        | some c => upsert acc e.path c
        | none =>
          match e.blobText with
          | some c => upsert acc e.path c
          | none => acc)
    []

/-- Identity and result assembly of the unpack step: extension identity is
taken from the registry descriptor when supplied, else from the manifest with
publisher falling back to the fixed `unknown` placeholder, matching the `||`
chains of the source. -/
def buildLoadedVSIX (manifest : VSIXManifest) (ext : Option OpenVSXExtension)
    (files : List (String × String)) : LoadedVSIX :=
  let extensionId :=
    match ext with
    | some e => OpenVSXClient.getExtensionId e
    | none => jsOrS (manifest.publisher.getD "") "unknown" ++ "." ++ manifest.name
  let nspace :=
    jsOrS (match ext with | some e => e.nspace | none => "")
      (jsOrS (manifest.publisher.getD "") "unknown")
  let name :=
    jsOrS (match ext with | some e => e.name | none => "") manifest.name
  let version :=
    jsOrS (match ext with | some e => e.version | none => "") manifest.version
  { manifest := manifest
    extensionId := extensionId
    nspace := nspace
    name := name
    version := version
    files := files
    entryPoint := some (stripDotSlash (entryPointOf manifest))
    isWebExtension := some (isWebExtension manifest) }

/-- Embeds `VSIXLoader.cacheVSIX`: persist the package record under its
version-qualified key; a persistence failure is swallowed. -/
def cacheVSIX (env : LoaderEnv) (v : LoadedVSIX) (st : LoaderState) :
    LoaderState :=
  if env.persistOk then
    { st with
        store := upsert st.store (storageKey v.extensionId v.version)
          ⟨v.manifest, v.extensionId, v.nspace, v.name, v.version, v.files,
            v.entryPoint, v.isWebExtension⟩ }
  else st

/-- Embeds `VSIXLoader.extractVSIX`: locate the manifest at one of the two
conventional paths, read and parse it, assemble the package, cache it and
store it in the in-memory repository. -/
def extractVSIX (env : LoaderEnv) (z : Zip) (ext : Option OpenVSXExtension)
    (st : LoaderState) : (Except LoadError LoadedVSIX) × LoaderState :=
  match (zipFile z "extension/package.json").orElse
      (fun _ => zipFile z "package.json") with
  | none => (.error .manifestMissing, st)
  | some entry =>
    match entry.strContent with
    | none => (.error .manifestReadFailed, st)
    | some text =>
      match env.parseJson text with
      | none => (.error .manifestParseError, st)
      | some manifest =>
        let v := buildLoadedVSIX manifest ext (collectFiles z)
        let st1 := cacheVSIX env v st
        (.ok v,
          { st1 with
              loadedExtensions := upsert st1.loadedExtensions v.extensionId v })

/-- Embeds `VSIXLoader.loadFromUrl`: one transport call, then unpacking. -/
def loadFromUrl (env : LoaderEnv) (url : String) (ext : Option OpenVSXExtension)
    (st : LoaderState) : (Except LoadError LoadedVSIX) × LoaderState :=
  let st1 := { st with fetchCount := st.fetchCount + 1 }
  match env.fetch url with
  | none => (.error .downloadFailed, st1)
  | some z => extractVSIX env z ext st1

/-- Base URL of the module-level registry client instance. -/
def openVSXBase : String := "https://open-vsx.org/api"

/-- Cache-miss continuation of `loadFromOpenVSX`: resolve the download URL
and download. -/
def loadFromOpenVSXMiss (env : LoaderEnv) (e : OpenVSXExtension)
    (st : LoaderState) : (Except LoadError LoadedVSIX) × LoaderState :=
  match OpenVSXClient.getDownloadUrl openVSXBase e with
  | none => (.error .noDownloadUrl, st)
  | some url => loadFromUrl env url (some e) st

/-- Embeds `VSIXLoader.loadFromOpenVSX`: return the in-memory entry when its
version matches the descriptor's version exactly, else download. -/
def loadFromOpenVSX (env : LoaderEnv) (e : OpenVSXExtension)
    (st : LoaderState) : (Except LoadError LoadedVSIX) × LoaderState :=
  match st.loadedExtensions.lookup (OpenVSXClient.getExtensionId e) with
  | some cached =>
    if cached.version == e.version then (.ok cached, st)
    else loadFromOpenVSXMiss env e st
  | none => loadFromOpenVSXMiss env e st

/-- Embeds `VSIXLoader.getCachedVSIX`: read the persisted record under the
version-qualified key; on a hit, rebuild the package (without the
`isWebExtension` field), re-populate the in-memory repository under the
requested identifier, and return it. -/
def getCachedVSIX (st : LoaderState) (extensionId version : String) :
    Option LoadedVSIX × LoaderState :=
  match st.store.lookup (storageKey extensionId version) with
  | some c =>
    let v : LoadedVSIX :=
      { manifest := c.manifest
        extensionId := c.extensionId
        nspace := c.nspace
        name := c.name
        version := c.version
        files := c.files
        entryPoint := c.entryPoint }
    (some v, { st with loadedExtensions := upsert st.loadedExtensions extensionId v })
  | none => (none, st)

/-- Embeds `VSIXLoader.getLoadedVSIX`. -/
def getLoadedVSIX (st : LoaderState) (extensionId : String) :
    Option LoadedVSIX :=
  st.loadedExtensions.lookup extensionId

/-- Embeds `VSIXLoader.getFile`: `loadedVSIX.files.get(relativePath) || null`
(the `||` also maps an empty stored content to null). -/
def getFile (v : LoadedVSIX) (relativePath : String) : Option String :=
  match v.files.lookup relativePath with
  | some c => if c == "" then none else some c
  | none => none

end VSIXLoader

/-- JavaScript value supplied as the callback argument, as far as the
adapter's checks observe it. -/
inductive JSVal where
  | vNull
  | vUndefined
  | vNum (n : Int)
  | vStr (s : String)
  | vFunc (id : Nat)
deriving DecidableEq, Repr

/-- Whether a property access such as `callback.toString()` succeeds: it
throws a TypeError on `null` and `undefined` and succeeds on every other
value. -/
def jsToStringOk : JSVal → Bool
  | .vNull => false
  | .vUndefined => false
  | _ => true

/-- Embeds `typeof callback === 'function'`. -/
def jsIsFunction : JSVal → Bool
  | .vFunc _ => true
  | _ => false

/-- Observable state of the command registry collaborator: the command
definitions created and the handlers registered, in order. -/
structure RegistryState where
  commands : List String
  handlers : List String
deriving DecidableEq, Repr

/-- Local state of one adapter instance: its command-handler index and the
number of subscriptions pushed onto the runtime context. -/
structure AdapterState where
  commandHandlers : List (String × JSVal)
  subscriptions : Nat
deriving DecidableEq, Repr

/-- Failure modes of `registerCommand`: the TypeError raised by the
pre-validation debug log when the callback is `null`/`undefined`, and the
`InvalidCallback` error of the explicit check. -/
inductive RegisterError where
  | nullToStringTypeError
  | invalidCallback
deriving DecidableEq, Repr

namespace VSCodeAPIAdapter

/-- Embeds `commands.registerCommand` of `createVSCodeAPI`, statement by
statement: the debug log evaluates `callback.toString()` before any
validation (throwing a TypeError for `null`/`undefined`), then the
`typeof callback !== 'function'` check throws the InvalidCallback error, and
only then are the registry collaborator and the local handler index
mutated. -/
def registerCommand (commandId : String) (callback : JSVal)
    (reg : RegistryState) (ad : AdapterState) :
    Except RegisterError (RegistryState × AdapterState) :=
  if !jsToStringOk callback then .error .nullToStringTypeError
  else if !jsIsFunction callback then .error .invalidCallback
  else
    let reg1 :=
      if reg.commands.contains commandId then reg
      else { reg with commands := reg.commands ++ [commandId] }
    let reg2 := { reg1 with handlers := reg1.handlers ++ [commandId] }
    let ad1 :=
      { ad with
          commandHandlers := upsert ad.commandHandlers commandId callback,
          subscriptions := ad.subscriptions + 1 }
    .ok (reg2, ad1)

end VSCodeAPIAdapter

theorem dropPre_append (p r : Str) : dropPre p (p ++ r) = some r := by
  induction p with
  | nil => rfl
  | cons a t ih => simp [dropPre, ih]

theorem dropWhile_eq_self_of_all {p : Char → Bool} {s : Str}
    (h : ∀ c ∈ s, p c = false) : s.dropWhile p = s := by
  cases s with
  | nil => rfl
  | cons a t => simp [List.dropWhile_cons, h a (List.mem_cons_self a t)]

theorem trimL_eq_self {s : Str} (h : ∀ c ∈ s, c.isWhitespace = false) :
    trimL s = s := by
  unfold trimL
  rw [dropWhile_eq_self_of_all h, dropWhile_eq_self_of_all, List.reverse_reverse]
  intro c hc
  exact h c (List.mem_reverse.mp hc)

theorem ws_false_append {s t : Str} (hs : ∀ c ∈ s, c.isWhitespace = false)
    (ht : ∀ c ∈ t, c.isWhitespace = false) :
    ∀ c ∈ s ++ t, c.isWhitespace = false := by
  intro c hc
  rcases List.mem_append.mp hc with h | h
  · exact hs c h
  · exact ht c h

theorem segOk_no_slash {s : Str} (h : segOk s = true) :
    ∀ c ∈ s, (c != '/') = true := by
  intro c hc
  have h2 := (Bool.and_eq_true _ _).mp h |>.2
  have := (List.all_eq_true.mp h2) c hc
  exact ((Bool.and_eq_true _ _).mp ((Bool.and_eq_true _ _).mp this).1).1

theorem segOk_no_ws {s : Str} (h : segOk s = true) :
    ∀ c ∈ s, c.isWhitespace = false := by
  intro c hc
  have h2 := (Bool.and_eq_true _ _).mp h |>.2
  have := (List.all_eq_true.mp h2) c hc
  have h3 := ((Bool.and_eq_true _ _).mp this).2
  simpa using h3

theorem refSegOk_no_slash {s : Str} (h : refSegOk s = true) :
    ∀ c ∈ s, (c != '/') = true := by
  intro c hc
  have h2 := (Bool.and_eq_true _ _).mp h |>.2
  have := (List.all_eq_true.mp h2) c hc
  exact ((Bool.and_eq_true _ _).mp this).1

theorem refSegOk_no_ws {s : Str} (h : refSegOk s = true) :
    ∀ c ∈ s, c.isWhitespace = false := by
  intro c hc
  have h2 := (Bool.and_eq_true _ _).mp h |>.2
  have := (List.all_eq_true.mp h2) c hc
  have h3 := ((Bool.and_eq_true _ _).mp this).2
  simpa using h3

theorem splitSeg_append_slash {o : Str} (rest : Str)
    (h : ∀ c ∈ o, (c != '/') = true) :
    splitSeg (o ++ '/' :: rest) = (o, '/' :: rest) := by
  unfold splitSeg
  rw [List.takeWhile_append_of_pos h, List.dropWhile_append_of_pos h]
  simp [List.takeWhile_cons, List.dropWhile_cons]

theorem splitSeg_all {o : Str} (h : ∀ c ∈ o, (c != '/') = true) :
    splitSeg o = (o, []) := by
  unfold splitSeg
  conv_lhs => rw [← List.append_nil o]
  rw [List.takeWhile_append_of_pos h, List.dropWhile_append_of_pos h]
  simp

theorem dropScheme_https (x : Str) :
    dropScheme ("https://".toList ++ x) = some x := by
  unfold dropScheme
  rw [dropPre_append]

theorem dropHost_github (x : Str) :
    dropHost ("github.com/".toList ++ x) = some x := by
  unfold dropHost
  have h1 : "github.com/".toList = 'g' :: "ithub.com/".toList := by decide
  have h2 : "www.".toList = 'w' :: "ww.".toList := by decide
  have hw : dropPre "www.".toList ("github.com/".toList ++ x) = none := by
    rw [h1, h2]
    simp [dropPre]
  rw [hw]
  exact dropPre_append _ _

theorem urlCore_true_no_tree {o r : Str}
    (hoS : ∀ c ∈ o, (c != '/') = true) (hrS : ∀ c ∈ r, (c != '/') = true)
    (hoe : o.isEmpty = false) (hre : r.isEmpty = false) :
    urlCore true (o ++ '/' :: r) = some (o, r, none, none) := by
  unfold urlCore
  rw [splitSeg_append_slash r hoS]
  simp only [hoe, Bool.false_eq_true, if_false]
  rw [splitSeg_all hrS]
  simp [hre, dropPre, tailGroup]

theorem urlCore_true_tree {o r rr : Str}
    (hoS : ∀ c ∈ o, (c != '/') = true) (hrS : ∀ c ∈ r, (c != '/') = true)
    (hrrS : ∀ c ∈ rr, (c != '/') = true)
    (hoe : o.isEmpty = false) (hre : r.isEmpty = false)
    (hrre : rr.isEmpty = false) :
    urlCore true (o ++ '/' :: (r ++ "/tree/".toList ++ rr)) =
      some (o, r, some rr, none) := by
  unfold urlCore
  rw [splitSeg_append_slash (r ++ "/tree/".toList ++ rr) hoS]
  simp only [hoe, Bool.false_eq_true, if_false]
  have h6 : "/tree/".toList = '/' :: "tree/".toList := by decide
  have hassoc : r ++ "/tree/".toList ++ rr = r ++ '/' :: ("tree/".toList ++ rr) := by
    rw [List.append_assoc, h6]
    rfl
  rw [hassoc, splitSeg_append_slash _ hrS]
  have hne : rr ≠ [] := by
    cases rr with
    | nil => simp at hrre
    | cons a t => simp
  have hd : dropPre ['/', 't', 'r', 'e', 'e', '/']
      ('/' :: 't' :: 'r' :: 'e' :: 'e' :: '/' :: rr) = some rr := by
    simp [dropPre]
  simp [hre, hd, splitSeg_all hrrS, hne, tailGroup]

theorem matchUrlPattern_build {x : Str} :
    matchUrlPattern true ("https://github.com/".toList ++ x) =
      urlCore true x := by
  have hsp : "https://github.com/".toList =
      "https://".toList ++ "github.com/".toList := by decide
  unfold matchUrlPattern
  rw [hsp, List.append_assoc, dropScheme_https, Option.some_bind,
    dropHost_github, Option.some_bind]

theorem stripDotGit_eq {r : Str} (hg : hasSuffix ".git".toList r = false) :
    stripDotGit r = r := by
  unfold stripDotGit
  rw [hg]
  simp

theorem segOk_ne_empty {s : Str} (h : segOk s = true) : s.isEmpty = false := by
  have := ((Bool.and_eq_true _ _).mp h).1
  simpa using this

theorem refSegOk_ne_empty {s : Str} (h : refSegOk s = true) :
    s.isEmpty = false := by
  have := ((Bool.and_eq_true _ _).mp h).1
  simpa using this

theorem finishUrl_no_tree {o r : Str} (hoe : o.isEmpty = false)
    (hre : r.isEmpty = false) (hg : hasSuffix ".git".toList r = false) :
    finishUrl (o, r, none, none) = some ⟨o, r, none, none⟩ := by
  simp [finishUrl, stripDotGit_eq hg, hoe, hre]

theorem finishUrl_tree {o r rr : Str} (hoe : o.isEmpty = false)
    (hre : r.isEmpty = false) (hg : hasSuffix ".git".toList r = false) :
    finishUrl (o, r, some rr, none) = some ⟨o, r, some rr, none⟩ := by
  simp [finishUrl, stripDotGit_eq hg, hoe, hre]

theorem parse_of_urlmatch {url : Str} {p : ParsedGitHubUrl}
    (hne : url.isEmpty = false) (htrim : trimL url = url)
    (hmatch : (matchUrlPattern true url).bind finishUrl = some p) :
    GitHubUrlParser.parse url = .ok p := by
  unfold GitHubUrlParser.parse
  simp only [hne, Bool.false_eq_true, if_false, htrim, hmatch]

/-- C2 (amended): round-trip of the parser on ref-only identifiers. -/
theorem toGitHubUrl_parse_roundtrip (p : ParsedGitHubUrl)
    (ho : segOk p.owner = true) (hr : segOk p.repo = true)
    (hg : hasSuffix ".git".toList p.repo = false)
    (href : ∀ rr, p.ref = some rr → refSegOk rr = true)
    (hp : p.path = none) :
    GitHubUrlParser.parse (GitHubUrlParser.toGitHubUrl p) = .ok p := by
  obtain ⟨o, r, ref, path⟩ := p
  dsimp only at ho hr hg href hp
  subst hp
  have hoe := segOk_ne_empty ho
  have hre := segOk_ne_empty hr
  have hoS := segOk_no_slash ho
  have hrS := segOk_no_slash hr
  have hoW := segOk_no_ws ho
  have hrW := segOk_no_ws hr
  have hlit : ∀ c ∈ "https://github.com/".toList, c.isWhitespace = false := by
    decide
  have hsl : ∀ c ∈ ['/'], c.isWhitespace = false := by decide
  cases ref with
  | none =>
    have hurl : GitHubUrlParser.toGitHubUrl ⟨o, r, none, none⟩ =
        "https://github.com/".toList ++ (o ++ '/' :: r) := by
      simp [GitHubUrlParser.toGitHubUrl, jsTruthy]
    rw [hurl]
    apply parse_of_urlmatch
    · rw [show "https://github.com/".toList =
        'h' :: "ttps://github.com/".toList from by decide]
      rfl
    · apply trimL_eq_self
      apply ws_false_append hlit
      apply ws_false_append hoW
      rw [show ('/' :: r : Str) = ['/'] ++ r from rfl]
      exact ws_false_append hsl hrW
    · rw [matchUrlPattern_build, urlCore_true_no_tree hoS hrS hoe hre,
        Option.some_bind, finishUrl_no_tree hoe hre hg]
  | some rr =>
    have hrr := href rr rfl
    have hrre := refSegOk_ne_empty hrr
    have hrrS := refSegOk_no_slash hrr
    have hrrW := refSegOk_no_ws hrr
    have htreeW : ∀ c ∈ "/tree/".toList, c.isWhitespace = false := by decide
    have hurl : GitHubUrlParser.toGitHubUrl ⟨o, r, some rr, none⟩ =
        "https://github.com/".toList ++
          (o ++ '/' :: (r ++ "/tree/".toList ++ rr)) := by
      simp [GitHubUrlParser.toGitHubUrl, jsTruthy, hrre]
    rw [hurl]
    apply parse_of_urlmatch
    · rw [show "https://github.com/".toList =
        'h' :: "ttps://github.com/".toList from by decide]
      rfl
    · apply trimL_eq_self
      apply ws_false_append hlit
      apply ws_false_append hoW
      rw [show ('/' :: (r ++ "/tree/".toList ++ rr) : Str) =
        ['/'] ++ (r ++ "/tree/".toList ++ rr) from rfl]
      apply ws_false_append hsl
      exact ws_false_append (ws_false_append hrW htreeW) hrrW
    · rw [matchUrlPattern_build, urlCore_true_tree hoS hrS hrrS hoe hre hrre,
        Option.some_bind, finishUrl_tree hoe hre hg]

/-- C1: on the full web URL form with an explicit tree marker the parser does
not return the entire remainder after the ref as `path`; the first remainder
segment is dropped unconditionally, so `.../tree/v1/src/a.ts` parses to
`path = "a.ts"` (not `"src/a.ts"`) and `.../tree/v1/a.ts` parses to an
absent path (not `"a.ts"`). -/
theorem parse_tree_url_drops_path_segment :
    GitHubUrlParser.parse "https://github.com/o/r/tree/v1/src/a.ts".toList =
      .ok ⟨"o".toList, "r".toList, some "v1".toList, some "a.ts".toList⟩ ∧
    GitHubUrlParser.parse "https://github.com/o/r/tree/v1/src/a.ts".toList ≠
      .ok ⟨"o".toList, "r".toList, some "v1".toList, some "src/a.ts".toList⟩ ∧
    GitHubUrlParser.parse "https://github.com/o/r/tree/v1/a.ts".toList =
      .ok ⟨"o".toList, "r".toList, some "v1".toList, none⟩ := by
  decide

/-- C2 counterexample: with a path but no ref, `toGitHubUrl` followed by
`parse` does not return the original identifier — the path's first segment is
reinterpreted as the ref. -/
theorem toGitHubUrl_not_right_inverse_with_path :
    GitHubUrlParser.parse
        (GitHubUrlParser.toGitHubUrl
          ⟨"o".toList, "r".toList, none, some "a.ts".toList⟩) =
      .ok ⟨"o".toList, "r".toList, some "a.ts".toList, none⟩ ∧
    GitHubUrlParser.parse
        (GitHubUrlParser.toGitHubUrl
          ⟨"o".toList, "r".toList, none, some "a.ts".toList⟩) ≠
      .ok ⟨"o".toList, "r".toList, none, some "a.ts".toList⟩ := by
  decide

/-- C2 witness: the amended round-trip theorem applied at a concrete
identifier with owner, repo and ref but no path. -/
theorem toGitHubUrl_parse_roundtrip_witness :
    GitHubUrlParser.parse
        (GitHubUrlParser.toGitHubUrl
          ⟨"octocat".toList, "hello".toList, some "v2".toList, none⟩) =
      .ok ⟨"octocat".toList, "hello".toList, some "v2".toList, none⟩ :=
  toGitHubUrl_parse_roundtrip _ (by decide) (by decide) (by decide)
    (by intro rr h; cases h; decide) rfl

theorem probeLoop_eq_find (env : GitHubExtensionLoader.GhEnv)
    (p : ParsedGitHubUrl) (l : List Str) :
    (GitHubExtensionLoader.probeLoop env p l).1 =
      (match l.find? (fun e => env.probeOk (GitHubExtensionLoader.toEsmShUrl p e)) with
       | some e => .ok ⟨e, isTsPath e, GitHubExtensionLoader.toEsmShUrl p e⟩
       | none => .error ()) := by
  induction l with
  | nil => rfl
  | cons e rest ih =>
    cases h : env.probeOk (GitHubExtensionLoader.toEsmShUrl p e) with
    | true => simp [GitHubExtensionLoader.probeLoop, List.find?, h]
    | false => simp [GitHubExtensionLoader.probeLoop, List.find?, h, ih]

/-- C5: strict entry-point resolution priority with first success winning —
an explicit (truthy) path is returned verbatim, flagged TypeScript exactly by
`isTsPath`, with no package-descriptor fetch and no probe; otherwise a truthy
manifest main field is returned without probing; otherwise the conventional
candidates are probed in their fixed order and the first successful probe is
returned, the operation failing only when every alternative is exhausted. -/
theorem discoverEntryPoint_priority (env : GitHubExtensionLoader.GhEnv)
    (p : ParsedGitHubUrl) :
    (∀ s, p.path = some s → s.isEmpty = false →
      GitHubExtensionLoader.discoverEntryPoint env p =
        (.ok ⟨s, isTsPath s, GitHubExtensionLoader.toEsmShUrl p s⟩, 0, 0)) ∧
    (jsTruthy p.path = false → ∀ m, env.pkgJsonMain = some (some m) →
      m.isEmpty = false →
      GitHubExtensionLoader.discoverEntryPoint env p =
        (.ok ⟨m, isTsPath m, GitHubExtensionLoader.toEsmShUrl p m⟩, 1, 0)) ∧
    (jsTruthy p.path = false →
      (match env.pkgJsonMain with
       | some (some m) => m.isEmpty
       | some none => true
       | none => true) = true →
      (GitHubExtensionLoader.discoverEntryPoint env p).1 =
        (match GitHubExtensionLoader.ENTRY_POINTS.find?
            (fun e => env.probeOk (GitHubExtensionLoader.toEsmShUrl p e)) with
         | some e => .ok ⟨e, isTsPath e, GitHubExtensionLoader.toEsmShUrl p e⟩
         | none => .error ()) ∧
      (GitHubExtensionLoader.discoverEntryPoint env p).2.1 = 1 ∧
      (GitHubExtensionLoader.discoverEntryPoint env p).2.2 ≤
        GitHubExtensionLoader.ENTRY_POINTS.length) := by
  refine ⟨?_, ?_, ?_⟩
  · intro s hs hse
    simp [GitHubExtensionLoader.discoverEntryPoint, hs, jsTruthy, hse]
  · intro hp m hm hme
    simp [GitHubExtensionLoader.discoverEntryPoint, hp, hm, hme]
  · intro hp hm
    have hloop : ∀ l : List Str,
        (GitHubExtensionLoader.probeLoop env p l).2 ≤ l.length := by
      intro l
      induction l with
      | nil => simp [GitHubExtensionLoader.probeLoop]
      | cons e rest ih =>
        cases h : env.probeOk (GitHubExtensionLoader.toEsmShUrl p e) with
        | true => simp [GitHubExtensionLoader.probeLoop, h]
        | false =>
          simp [GitHubExtensionLoader.probeLoop, h]
          omega
    cases hpk : env.pkgJsonMain with
    | none =>
      refine ⟨?_, ?_, ?_⟩ <;>
        simp [GitHubExtensionLoader.discoverEntryPoint, hp, hpk,
          probeLoop_eq_find, hloop]
    | some pj =>
      cases pj with
      | none =>
        refine ⟨?_, ?_, ?_⟩ <;>
          simp [GitHubExtensionLoader.discoverEntryPoint, hp, hpk,
            probeLoop_eq_find, hloop]
      | some m =>
        rw [hpk] at hm
        simp only at hm
        refine ⟨?_, ?_, ?_⟩ <;>
          simp [GitHubExtensionLoader.discoverEntryPoint, hp, hpk, hm,
            probeLoop_eq_find, hloop]

/-- C5 witness: with a parsed identifier carrying the explicit path
`src/x.ts`, resolution returns it verbatim, flagged TypeScript, with zero
fetches and zero probes, even though a manifest main field exists. -/
theorem discoverEntryPoint_priority_witness :
    GitHubExtensionLoader.discoverEntryPoint
        ⟨some (some "out/ext.js".toList), fun _ => false⟩
        ⟨"o".toList, "r".toList, none, some "src/x.ts".toList⟩ =
      (.ok ⟨"src/x.ts".toList, true,
        GitHubExtensionLoader.toEsmShUrl
          ⟨"o".toList, "r".toList, none, some "src/x.ts".toList⟩
          "src/x.ts".toList⟩, 0, 0) := by
  have h := (discoverEntryPoint_priority
    ⟨some (some "out/ext.js".toList), fun _ => false⟩
    ⟨"o".toList, "r".toList, none, some "src/x.ts".toList⟩).1
    "src/x.ts".toList rfl (by decide)
  rw [h]
  decide

/-- C6: `getDownloadUrl` returns a carried (truthy) download descriptor
unchanged whatever the other fields are; with no download descriptor it
synthesizes `{base}/{ns}/{name}/{version}/file/{ns}.{name}-{version}.vsix`
exactly when namespace, name and version are all present (truthy); in every
other case it returns undefined. -/
theorem getDownloadUrl_cases (baseUrl : String) (e : OpenVSXExtension) :
    (∀ d, filesDownload e = some d → d ≠ "" →
      OpenVSXClient.getDownloadUrl baseUrl e = some d) ∧
    (truthyS (filesDownload e) = false →
      e.nspace ≠ "" → e.name ≠ "" → e.version ≠ "" →
      OpenVSXClient.getDownloadUrl baseUrl e =
        some (baseUrl ++ "/" ++ e.nspace ++ "/" ++ e.name ++ "/" ++
          e.version ++ "/file/" ++ e.nspace ++ "." ++ e.name ++ "-" ++
          e.version ++ ".vsix")) ∧
    (truthyS (filesDownload e) = false →
      (e.nspace = "" ∨ e.name = "" ∨ e.version = "") →
      OpenVSXClient.getDownloadUrl baseUrl e = none) := by
  refine ⟨?_, ?_, ?_⟩
  · intro d hd hne
    simp [OpenVSXClient.getDownloadUrl, hd, truthyS, hne]
  · intro hdl h1 h2 h3
    simp [OpenVSXClient.getDownloadUrl, hdl, h1, h2, h3]
  · intro hdl h
    rcases h with h | h | h <;>
      simp [OpenVSXClient.getDownloadUrl, hdl, h]

/-- C6 witness: a carried download descriptor `"X"` is returned unchanged
even though all identity fields are present. -/
theorem getDownloadUrl_cases_witness :
    OpenVSXClient.getDownloadUrl "https://open-vsx.org/api"
        ⟨"ns", "n", "1.0.0", none, none, none, some (some "X")⟩ = some "X" :=
  (getDownloadUrl_cases "https://open-vsx.org/api"
    ⟨"ns", "n", "1.0.0", none, none, none, some (some "X")⟩).1
    "X" rfl (by decide)

/-- C4: the computed web-compatibility flag is true exactly when the manifest
has a truthy browser entry field, or its supported-environment tags include
`web` or `ui`, or it has neither a truthy main nor a truthy browser field;
in particular a manifest with only a main field and no tags yields false, and
one with neither entry field and no tags yields true. -/
theorem isWebExtension_iff (m : VSIXManifest) :
    (VSIXLoader.isWebExtension m = true ↔
      (truthyS m.browser = true ∨ VSIXLoader.kindHasWebUi m = true ∨
        (truthyS m.main = false ∧ truthyS m.browser = false))) ∧
    VSIXLoader.isWebExtension
      ⟨"x", none, "1", some "./out/main.js", none, none, none, none⟩ = false ∧
    VSIXLoader.isWebExtension
      ⟨"x", none, "1", none, none, none, none, none⟩ = true := by
  refine ⟨?_, by decide, by decide⟩
  cases hb : truthyS m.browser <;>
    cases hmn : truthyS m.main <;>
      cases hk : VSIXLoader.kindHasWebUi m <;>
        simp [VSIXLoader.isWebExtension, hb, hmn, hk]

/-- C4 witness: the biconditional applied to a concrete manifest carrying
only a browser field. -/
theorem isWebExtension_iff_witness :
    VSIXLoader.isWebExtension
      ⟨"x", none, "1", none, some "dist/web.js", none, none, none⟩ = true :=
  (isWebExtension_iff
    ⟨"x", none, "1", none, some "dist/web.js", none, none, none⟩).1.mpr
    (Or.inl (by decide))

/-- C9 (amended): `getFile` returns the stored content exactly when the path
is a key of the file mapping with non-empty content, and null exactly when
the path is absent or its stored content is the empty string (the `|| null`
of the source also maps an empty stored string to null). -/
theorem getFile_lookup (v : LoadedVSIX) (s : String) :
    (∀ c, VSIXLoader.getFile v s = some c ↔
      (v.files.lookup s = some c ∧ c ≠ "")) ∧
    (VSIXLoader.getFile v s = none ↔
      (v.files.lookup s = none ∨ v.files.lookup s = some "")) := by
  cases h : v.files.lookup s with
  | none => simp [VSIXLoader.getFile, h]
  | some c =>
    by_cases hc : c = ""
    · subst hc
      simp [VSIXLoader.getFile, h]
    · constructor
      · intro d
        constructor
        · intro hd
          simp [VSIXLoader.getFile, h, hc] at hd
          subst hd
          exact ⟨rfl, hc⟩
        · intro ⟨hd, _⟩
          cases hd
          simp [VSIXLoader.getFile, h, hc]
      · simp [VSIXLoader.getFile, h, hc]

/-- C9 counterexample: a path that is a key of the file mapping but whose
stored content is empty makes `getFile` return null, contradicting
`null iff miss`. -/
theorem getFile_null_on_empty_content :
    VSIXLoader.getFile
      ⟨⟨"b", none, "1", none, none, none, none, none⟩, "a.b", "a", "b", "1",
        [("a", "")], some "extension.js", some true⟩ "a" = none ∧
    (⟨⟨"b", none, "1", none, none, none, none, none⟩, "a.b", "a", "b", "1",
        [("a", "")], some "extension.js", some true⟩ :
      LoadedVSIX).files.lookup "a" = some "" := by
  decide

/-- C9 witness: the amended characterization applied to a package holding a
file with non-empty content. -/
theorem getFile_lookup_witness :
    VSIXLoader.getFile
      ⟨⟨"b", none, "1", none, none, none, none, none⟩, "a.b", "a", "b", "1",
        [("lib/x.js", "code")], some "extension.js", some true⟩ "lib/x.js" =
      some "code" :=
  ((getFile_lookup
    ⟨⟨"b", none, "1", none, none, none, none, none⟩, "a.b", "a", "b", "1",
      [("lib/x.js", "code")], some "extension.js", some true⟩ "lib/x.js").1
    "code").mpr ⟨by decide, by decide⟩

theorem lookup_upsert {β : Type} (m : List (String × β)) (k : String) (v : β) :
    (upsert m k v).lookup k = some v := by
  simp [upsert, List.lookup]

/-- C10: a cache hit of `getCachedVSIX` returns a package whose
`isWebExtension` field is absent regardless of the persisted value, and the
in-memory repository entry it re-populates is that same flag-less package. -/
theorem getCachedVSIX_no_web_flag (st : LoaderState)
    (extensionId version : String) (v : LoadedVSIX) (st' : LoaderState)
    (h : VSIXLoader.getCachedVSIX st extensionId version = (some v, st')) :
    v.isWebExtension = none ∧
    st'.loadedExtensions.lookup extensionId = some v := by
  unfold VSIXLoader.getCachedVSIX at h
  cases hl : st.store.lookup (VSIXLoader.storageKey extensionId version) with
  | none =>
    rw [hl] at h
    simp at h
  | some c =>
    rw [hl] at h
    simp only [Prod.mk.injEq, Option.some.injEq] at h
    obtain ⟨hv, hst⟩ := h
    subst hv
    subst hst
    exact ⟨rfl, lookup_upsert _ _ _⟩

/-- C10 witness: a persisted record carrying `isWebExtension = true` is
restored without the flag, both in the returned package and in the in-memory
repository. -/
theorem getCachedVSIX_no_web_flag_witness :
    (⟨⟨"b", none, "1", none, none, none, none, none⟩, "a.b", "a", "b", "1",
        [], some "extension.js", none⟩ : LoadedVSIX).isWebExtension = none ∧
    (⟨[("a.b",
        ⟨⟨"b", none, "1", none, none, none, none, none⟩, "a.b", "a", "b", "1",
          [], some "extension.js", none⟩)],
      [(VSIXLoader.storageKey "a.b" "1",
        ⟨⟨"b", none, "1", none, none, none, none, none⟩, "a.b", "a", "b", "1",
          [], some "extension.js", some true⟩)],
      0⟩ : LoaderState).loadedExtensions.lookup "a.b" =
      some ⟨⟨"b", none, "1", none, none, none, none, none⟩, "a.b", "a", "b",
        "1", [], some "extension.js", none⟩ :=
  getCachedVSIX_no_web_flag
    ⟨[],
      [(VSIXLoader.storageKey "a.b" "1",
        ⟨⟨"b", none, "1", none, none, none, none, none⟩, "a.b", "a", "b", "1",
          [], some "extension.js", some true⟩)],
      0⟩
    "a.b" "1"
    ⟨⟨"b", none, "1", none, none, none, none, none⟩, "a.b", "a", "b", "1",
      [], some "extension.js", none⟩
    ⟨[("a.b",
        ⟨⟨"b", none, "1", none, none, none, none, none⟩, "a.b", "a", "b", "1",
          [], some "extension.js", none⟩)],
      [(VSIXLoader.storageKey "a.b" "1",
        ⟨⟨"b", none, "1", none, none, none, none, none⟩, "a.b", "a", "b", "1",
          [], some "extension.js", some true⟩)],
      0⟩
    (by decide)

theorem cacheVSIX_loadedExtensions (env : LoaderEnv) (v : LoadedVSIX)
    (st : LoaderState) :
    (VSIXLoader.cacheVSIX env v st).loadedExtensions = st.loadedExtensions := by
  unfold VSIXLoader.cacheVSIX
  split <;> rfl

theorem extractVSIX_ok_inv {env : LoaderEnv} {z : Zip}
    {ext : Option OpenVSXExtension} {st : LoaderState} {v : LoadedVSIX}
    {st' : LoaderState}
    (h : VSIXLoader.extractVSIX env z ext st = (.ok v, st')) :
    (∃ m, v = VSIXLoader.buildLoadedVSIX m ext (VSIXLoader.collectFiles z)) ∧
    st'.loadedExtensions = upsert st.loadedExtensions v.extensionId v := by
  unfold VSIXLoader.extractVSIX at h
  cases hm : (zipFile z "extension/package.json").orElse
      (fun _ => zipFile z "package.json") with
  | none =>
    rw [hm] at h
    simp at h
  | some entry =>
    rw [hm] at h
    dsimp only at h
    cases hc : entry.strContent with
    | none =>
      rw [hc] at h
      simp at h
    | some text =>
      rw [hc] at h
      dsimp only at h
      cases hp : env.parseJson text with
      | none =>
        rw [hp] at h
        simp at h
      | some m =>
        rw [hp] at h
        dsimp only at h
        simp only [Prod.mk.injEq, Except.ok.injEq] at h
        obtain ⟨hv, hst⟩ := h
        subst hv
        refine ⟨⟨m, rfl⟩, ?_⟩
        rw [← hst]
        rw [cacheVSIX_loadedExtensions]

/-- C8 (amended): every package produced by the unpack step satisfies
`extensionId = namespace ++ "." ++ name`, provided that a supplied registry
descriptor has truthy (non-empty) namespace and name; the namespace falls
back to the manifest publisher (or the `unknown` placeholder) exactly when no
registry descriptor supplies it. -/
theorem extractVSIX_identity (env : LoaderEnv) (z : Zip)
    (ext : Option OpenVSXExtension) (st : LoaderState) (v : LoadedVSIX)
    (st' : LoaderState)
    (h : VSIXLoader.extractVSIX env z ext st = (.ok v, st'))
    (hext : ∀ e, ext = some e → e.nspace ≠ "" ∧ e.name ≠ "") :
    v.extensionId = v.nspace ++ "." ++ v.name ∧
    (ext = none →
      v.nspace = jsOrS (v.manifest.publisher.getD "") "unknown") ∧
    (∀ e, ext = some e → v.nspace = e.nspace) := by
  obtain ⟨⟨m, hv⟩, _⟩ := extractVSIX_ok_inv h
  subst hv
  cases ext with
  | none =>
    refine ⟨?_, ?_, ?_⟩
    · simp [VSIXLoader.buildLoadedVSIX, jsOrS]
    · intro _
      simp [VSIXLoader.buildLoadedVSIX, jsOrS]
    · intro e he
      cases he
  | some e =>
    obtain ⟨hn, hm2⟩ := hext e rfl
    refine ⟨?_, ?_, ?_⟩
    · simp [VSIXLoader.buildLoadedVSIX, OpenVSXClient.getExtensionId, jsOrS,
        hn, hm2]
    · intro habs
      cases habs
    · intro e' he'
      cases he'
      simp [VSIXLoader.buildLoadedVSIX, jsOrS, hn]

/-- C8 counterexample: a registry descriptor with an empty namespace makes
the unpack step produce `extensionId = ".n"` while the namespace falls back
to the manifest publisher `"p"`, so the identity invariant
`extensionId = namespace ++ "." ++ name` fails. -/
theorem extractVSIX_identity_cex :
    ((VSIXLoader.extractVSIX
        ⟨fun _ => none,
         fun s =>
           if s == "M" then
             some ⟨"n", none, "1", none, none, none, some "p", none⟩
           else none,
         true⟩
        [⟨"extension/package.json", false, some "M", none⟩]
        (some ⟨"", "n", "1", none, none, none, none⟩)
        ⟨[], [], 0⟩).1.map
      (fun v => (v.extensionId, v.nspace ++ "." ++ v.name))) =
      .ok (".n", "p.n") ∧ (".n" : String) ≠ "p.n" := by
  decide

/-- C8 witness: the amended identity invariant applied to a concrete unpack
with a registry descriptor whose namespace and name are non-empty. -/
theorem extractVSIX_identity_witness :
    (⟨⟨"b", none, "1.0", none, none, none, some "p", none⟩, "a.b", "a", "b",
      "1.0", [("extension/package.json", "M")], some "extension.js",
      some true⟩ : LoadedVSIX).extensionId =
    (⟨⟨"b", none, "1.0", none, none, none, some "p", none⟩, "a.b", "a", "b",
      "1.0", [("extension/package.json", "M")], some "extension.js",
      some true⟩ : LoadedVSIX).nspace ++ "." ++
    (⟨⟨"b", none, "1.0", none, none, none, some "p", none⟩, "a.b", "a", "b",
      "1.0", [("extension/package.json", "M")], some "extension.js",
      some true⟩ : LoadedVSIX).name :=
  (extractVSIX_identity
    ⟨fun _ => none,
     fun s =>
       if s == "M" then
         some ⟨"b", none, "1.0", none, none, none, some "p", none⟩
       else none,
     true⟩
    [⟨"extension/package.json", false, some "M", none⟩]
    (some ⟨"a", "b", "1.0", none, none, none, none⟩)
    ⟨[], [], 0⟩
    ⟨⟨"b", none, "1.0", none, none, none, some "p", none⟩, "a.b", "a", "b",
      "1.0", [("extension/package.json", "M")], some "extension.js",
      some true⟩
    ⟨[("a.b",
        ⟨⟨"b", none, "1.0", none, none, none, some "p", none⟩, "a.b", "a",
          "b", "1.0", [("extension/package.json", "M")], some "extension.js",
          some true⟩)],
      [("vsix_extensions/a.b/1.0",
        ⟨⟨"b", none, "1.0", none, none, none, some "p", none⟩, "a.b", "a",
          "b", "1.0", [("extension/package.json", "M")], some "extension.js",
          some true⟩)],
      0⟩
    (by decide)
    (by
      intro e he
      cases he
      exact ⟨by decide, by decide⟩)).1

theorem buildLoadedVSIX_extensionId_some (m : VSIXManifest)
    (e : OpenVSXExtension) (files : List (String × String)) :
    (VSIXLoader.buildLoadedVSIX m (some e) files).extensionId =
      OpenVSXClient.getExtensionId e := rfl

theorem buildLoadedVSIX_version_some (m : VSIXManifest)
    (e : OpenVSXExtension) (files : List (String × String)) :
    (VSIXLoader.buildLoadedVSIX m (some e) files).version =
      jsOrS e.version m.version := rfl

theorem loadFromOpenVSXMiss_inv {env : LoaderEnv} {e : OpenVSXExtension}
    {st : LoaderState} {v : LoadedVSIX} {st1 : LoaderState}
    (hv : e.version ≠ "")
    (hm : VSIXLoader.loadFromOpenVSXMiss env e st = (.ok v, st1)) :
    st1.loadedExtensions.lookup (OpenVSXClient.getExtensionId e) = some v ∧
    v.version = e.version := by
  unfold VSIXLoader.loadFromOpenVSXMiss at hm
  cases hd : OpenVSXClient.getDownloadUrl VSIXLoader.openVSXBase e with
  | none =>
    rw [hd] at hm
    simp at hm
  | some url =>
    rw [hd] at hm
    unfold VSIXLoader.loadFromUrl at hm
    dsimp only at hm
    cases hf : env.fetch url with
    | none =>
      rw [hf] at hm
      simp at hm
    | some z =>
      rw [hf] at hm
      obtain ⟨⟨m, hvm⟩, hupd⟩ := extractVSIX_ok_inv hm
      have hids : v.extensionId = OpenVSXClient.getExtensionId e := by
        rw [hvm, buildLoadedVSIX_extensionId_some]
      constructor
      · rw [hupd, hids]
        exact lookup_upsert _ _ _
      · rw [hvm, buildLoadedVSIX_version_some]
        simp [jsOrS, hv]

/-- C3 (amended): for a registry descriptor with a non-empty version, after
one successful `loadFromOpenVSX`, a second call with a descriptor of the same
extension identifier and the same version returns the instance held in the
in-memory repository unchanged, with the very same loader state — in
particular the transport call count is untouched. -/
theorem loadFromOpenVSX_read_through (env : LoaderEnv)
    (e e' : OpenVSXExtension) (st st1 : LoaderState) (v : LoadedVSIX)
    (hv : e.version ≠ "")
    (hid : OpenVSXClient.getExtensionId e' = OpenVSXClient.getExtensionId e)
    (hver : e'.version = e.version)
    (h : VSIXLoader.loadFromOpenVSX env e st = (.ok v, st1)) :
    st1.loadedExtensions.lookup (OpenVSXClient.getExtensionId e') = some v ∧
    VSIXLoader.loadFromOpenVSX env e' st1 = (.ok v, st1) := by
  have key : st1.loadedExtensions.lookup (OpenVSXClient.getExtensionId e) =
      some v ∧ v.version = e.version := by
    unfold VSIXLoader.loadFromOpenVSX at h
    cases hc : st.loadedExtensions.lookup (OpenVSXClient.getExtensionId e) with
    | some cached =>
      rw [hc] at h
      dsimp only at h
      cases hbe : cached.version == e.version with
      | true =>
        rw [hbe] at h
        simp only [if_true] at h
        simp only [Prod.mk.injEq, Except.ok.injEq] at h
        obtain ⟨hcv, hst⟩ := h
        subst hcv
        subst hst
        exact ⟨hc, by simpa using hbe⟩
      | false =>
        rw [hbe] at h
        simp only [Bool.false_eq_true, if_false] at h
        exact loadFromOpenVSXMiss_inv hv h
    | none =>
      rw [hc] at h
      dsimp only at h
      exact loadFromOpenVSXMiss_inv hv h
  obtain ⟨hl, hvv⟩ := key
  have hl' : st1.loadedExtensions.lookup (OpenVSXClient.getExtensionId e') =
      some v := by
    rw [hid]
    exact hl
  refine ⟨hl', ?_⟩
  unfold VSIXLoader.loadFromOpenVSX
  rw [hl']
  have hb : (v.version == e'.version) = true := by
    rw [hvv, hver]
    simp
  dsimp only
  rw [hb]
  simp

/-- C3 counterexample: a registry descriptor whose version field is the empty
string loads successfully (its download descriptor is present), but the
stored package takes its version from the manifest, so an identical second
call misses the in-memory repository and performs a second network transfer
(the transport call count rises from 1 to 2). -/
theorem loadFromOpenVSX_read_through_cex :
    ((VSIXLoader.loadFromOpenVSX
        ⟨fun u =>
           if u == "dl" then
             some [⟨"extension/package.json", false, some "mt", none⟩]
           else none,
         fun s =>
           if s == "mt" then
             some ⟨"b", none, "1.0", none, none, none, some "a", none⟩
           else none,
         true⟩
        ⟨"a", "b", "", none, none, none, some (some "dl")⟩
        ⟨[], [], 0⟩).1).toOption.isSome = true ∧
    (VSIXLoader.loadFromOpenVSX
        ⟨fun u =>
           if u == "dl" then
             some [⟨"extension/package.json", false, some "mt", none⟩]
           else none,
         fun s =>
           if s == "mt" then
             some ⟨"b", none, "1.0", none, none, none, some "a", none⟩
           else none,
         true⟩
        ⟨"a", "b", "", none, none, none, some (some "dl")⟩
        ⟨[], [], 0⟩).2.fetchCount = 1 ∧
    ((VSIXLoader.loadFromOpenVSX
        ⟨fun u =>
           if u == "dl" then
             some [⟨"extension/package.json", false, some "mt", none⟩]
           else none,
         fun s =>
           if s == "mt" then
             some ⟨"b", none, "1.0", none, none, none, some "a", none⟩
           else none,
         true⟩
        ⟨"a", "b", "", none, none, none, some (some "dl")⟩
        ((VSIXLoader.loadFromOpenVSX
          ⟨fun u =>
             if u == "dl" then
               some [⟨"extension/package.json", false, some "mt", none⟩]
             else none,
           fun s =>
             if s == "mt" then
               some ⟨"b", none, "1.0", none, none, none, some "a", none⟩
             else none,
           true⟩
          ⟨"a", "b", "", none, none, none, some (some "dl")⟩
          ⟨[], [], 0⟩).2)).1).toOption.isSome = true ∧
    (VSIXLoader.loadFromOpenVSX
        ⟨fun u =>
           if u == "dl" then
             some [⟨"extension/package.json", false, some "mt", none⟩]
           else none,
         fun s =>
           if s == "mt" then
             some ⟨"b", none, "1.0", none, none, none, some "a", none⟩
           else none,
         true⟩
        ⟨"a", "b", "", none, none, none, some (some "dl")⟩
        ((VSIXLoader.loadFromOpenVSX
          ⟨fun u =>
             if u == "dl" then
               some [⟨"extension/package.json", false, some "mt", none⟩]
             else none,
           fun s =>
             if s == "mt" then
               some ⟨"b", none, "1.0", none, none, none, some "a", none⟩
             else none,
           true⟩
          ⟨"a", "b", "", none, none, none, some (some "dl")⟩
          ⟨[], [], 0⟩).2)).2.fetchCount = 2 := by
  decide

/-- C3 witness: the amended read-through theorem applied to a concrete
loader run with a non-empty version; the second call returns the in-memory
instance and the state (transport call count included) unchanged. -/
theorem loadFromOpenVSX_read_through_witness :
    (⟨[("a.b",
        ⟨⟨"b", none, "1.0", none, none, none, some "p", none⟩, "a.b", "a",
          "b", "1.0", [("extension/package.json", "M")], some "extension.js",
          some true⟩)],
      [("vsix_extensions/a.b/1.0",
        ⟨⟨"b", none, "1.0", none, none, none, some "p", none⟩, "a.b", "a",
          "b", "1.0", [("extension/package.json", "M")], some "extension.js",
          some true⟩)],
      1⟩ : LoaderState).loadedExtensions.lookup
        (OpenVSXClient.getExtensionId
          ⟨"a", "b", "1.0", none, none, none, some (some "dl")⟩) =
      some
        ⟨⟨"b", none, "1.0", none, none, none, some "p", none⟩, "a.b", "a",
          "b", "1.0", [("extension/package.json", "M")], some "extension.js",
          some true⟩ ∧
    VSIXLoader.loadFromOpenVSX
      ⟨fun u =>
         if u == "dl" then
           some [⟨"extension/package.json", false, some "M", none⟩]
         else none,
       fun s =>
         if s == "M" then
           some ⟨"b", none, "1.0", none, none, none, some "p", none⟩
         else none,
       true⟩
      ⟨"a", "b", "1.0", none, none, none, some (some "dl")⟩
      ⟨[("a.b",
          ⟨⟨"b", none, "1.0", none, none, none, some "p", none⟩, "a.b", "a",
            "b", "1.0", [("extension/package.json", "M")],
            some "extension.js", some true⟩)],
        [("vsix_extensions/a.b/1.0",
          ⟨⟨"b", none, "1.0", none, none, none, some "p", none⟩, "a.b", "a",
            "b", "1.0", [("extension/package.json", "M")],
            some "extension.js", some true⟩)],
        1⟩ =
      (.ok
        ⟨⟨"b", none, "1.0", none, none, none, some "p", none⟩, "a.b", "a",
          "b", "1.0", [("extension/package.json", "M")], some "extension.js",
          some true⟩,
       ⟨[("a.b",
           ⟨⟨"b", none, "1.0", none, none, none, some "p", none⟩, "a.b", "a",
             "b", "1.0", [("extension/package.json", "M")],
             some "extension.js", some true⟩)],
         [("vsix_extensions/a.b/1.0",
           ⟨⟨"b", none, "1.0", none, none, none, some "p", none⟩, "a.b", "a",
             "b", "1.0", [("extension/package.json", "M")],
             some "extension.js", some true⟩)],
         1⟩) :=
  loadFromOpenVSX_read_through
    ⟨fun u =>
       if u == "dl" then
         some [⟨"extension/package.json", false, some "M", none⟩]
       else none,
     fun s =>
       if s == "M" then
         some ⟨"b", none, "1.0", none, none, none, some "p", none⟩
       else none,
     true⟩
    ⟨"a", "b", "1.0", none, none, none, some (some "dl")⟩
    ⟨"a", "b", "1.0", none, none, none, some (some "dl")⟩
    ⟨[], [], 0⟩
    ⟨[("a.b",
        ⟨⟨"b", none, "1.0", none, none, none, some "p", none⟩, "a.b", "a",
          "b", "1.0", [("extension/package.json", "M")], some "extension.js",
          some true⟩)],
      [("vsix_extensions/a.b/1.0",
        ⟨⟨"b", none, "1.0", none, none, none, some "p", none⟩, "a.b", "a",
          "b", "1.0", [("extension/package.json", "M")], some "extension.js",
          some true⟩)],
      1⟩
    ⟨⟨"b", none, "1.0", none, none, none, some "p", none⟩, "a.b", "a", "b",
      "1.0", [("extension/package.json", "M")], some "extension.js",
      some true⟩
    (by decide) rfl rfl (by decide)

/-- C7: for a null or undefined callback, `registerCommand` does not fail
with the InvalidCallback error — the debug log's `callback.toString()` throws
a TypeError before the validation check is reached; numbers and strings do
reach the check and fail with InvalidCallback.  Every failure happens before
any mutation, so neither the command registry nor the local handler index is
modified. -/
theorem registerCommand_null_typeerror :
    VSCodeAPIAdapter.registerCommand "x" .vNull ⟨[], []⟩ ⟨[], 0⟩ =
      .error .nullToStringTypeError ∧
    VSCodeAPIAdapter.registerCommand "x" .vUndefined ⟨[], []⟩ ⟨[], 0⟩ =
      .error .nullToStringTypeError ∧
    RegisterError.nullToStringTypeError ≠ RegisterError.invalidCallback ∧
    VSCodeAPIAdapter.registerCommand "x" (.vNum 3) ⟨[], []⟩ ⟨[], 0⟩ =
      .error .invalidCallback ∧
    VSCodeAPIAdapter.registerCommand "x" (.vStr "f") ⟨[], []⟩ ⟨[], 0⟩ =
      .error .invalidCallback := by
  decide
